import Mathlib

/-!
# Starbucks Drink Nutrition Explorer: a verification development of `script.js`

The script loads a CSV of beverages, cleans every row (`cleanRow`), keeps the
rows whose calories are at most 600, and renders a scatterplot whose marks are
re-bound on every control change (`updateChart`) together with a legend
(`drawLegend`).

Conventions of the embedding.

* A JavaScript Number is a `JSNum`: `NaN`, the two infinities, or a finite value.
  A finite value is kept as the exact rational denoted by the text or literal it
  comes from; rounding to binary64 is outside the model, and `-0` is identified
  with `0` (the script never distinguishes them: `<=`, `isNaN`, `||` agree on both).
* A JavaScript value that may be `undefined` or `null` is an `Option`.
* The visual tree is explicit state; a transition is modelled by its end state.
* Functions of the d3 library that only compute colours or pixel positions are
  parameters (`Env`); the data join and the ordinal scale, whose behaviour the
  properties depend on, are written out.
-/

namespace Starbucks

/-! ## JavaScript numbers -/

/-- A JavaScript Number value. -/
inductive JSNum where
  | nan
  | negInf
  | fin (q : ℚ)
  | posInf
  deriving DecidableEq

namespace JSNum

/-- The global `isNaN` applied to a Number. -/
def isNaN : JSNum → Bool
  | nan => true
  | _ => false

/-- The test `Number.isFinite`: neither `NaN` nor an infinity. -/
def isFinite : JSNum → Bool
  | fin _ => true
  | _ => false

/-- The relational operator `a <= b` on Numbers: false as soon as an operand is `NaN`. -/
def le : JSNum → JSNum → Bool
  | nan, _ => false
  | _, nan => false
  | negInf, _ => true
  | _, posInf => true
  | posInf, _ => false
  | _, negInf => false
  | fin a, fin b => decide (a ≤ b)

/-- The relational operator `a >= b` on Numbers. -/
def ge (a b : JSNum) : Bool := le b a

/-- The relational operator `a < b` on Numbers. -/
def lt : JSNum → JSNum → Bool
  | nan, _ => false
  | _, nan => false
  | _, negInf => false
  | negInf, _ => true
  | posInf, _ => false
  | _, posInf => true
  | fin a, fin b => decide (a < b)

/-- The conversion ToBoolean on Numbers: `0` and `NaN` are falsy. -/
def truthy : JSNum → Bool
  | nan => false
  | fin q => decide (q ≠ 0)
  | _ => true

end JSNum

/-! ## The unary plus on a property value: `StringToNumber` -/

/-- The characters of `StrWhiteSpaceChar`: white space and line terminators. -/
def isStrWhiteSpaceChar (c : Char) : Bool :=
  c.toNat ∈ [0x9, 0xA, 0xB, 0xC, 0xD, 0x20, 0xA0, 0x1680, 0x2000, 0x2001, 0x2002,
    0x2003, 0x2004, 0x2005, 0x2006, 0x2007, 0x2008, 0x2009, 0x200A, 0x2028, 0x2029,
    0x202F, 0x205F, 0x3000, 0xFEFF]

/-- Strip leading and trailing `StrWhiteSpaceChar`s. -/
def trimWhiteSpace (cs : List Char) : List Char :=
  ((cs.dropWhile isStrWhiteSpaceChar).reverse.dropWhile isStrWhiteSpaceChar).reverse

/-- The value of a digit in the given radix (2, 8, 10 or 16), if the character is one. -/
def digitValue (radix : Nat) (c : Char) : Option Nat :=
  let n := c.toNat
  let v :=
    if 48 ≤ n ∧ n ≤ 57 then some (n - 48)
    else if 97 ≤ n ∧ n ≤ 102 then some (n - 87)
    else if 65 ≤ n ∧ n ≤ 70 then some (n - 55)
    else none
  v.bind (fun d => if d < radix then some d else none)

/-- The value of a possibly empty run of digits; `none` if a character is not a digit. -/
def digitsValue (radix : Nat) : List Char → Nat → Option Nat
  | [], acc => some acc
  | c :: cs, acc => (digitValue radix c).bind (fun d => digitsValue radix cs (acc * radix + d))

/-- The value of a non-empty run of digits. -/
def nonEmptyDigits (radix : Nat) (cs : List Char) : Option Nat :=
  if cs = [] then none else digitsValue radix cs 0

/-- A text of the grammar `StrNumericLiteral`, read but not yet evaluated: `Infinity` with
its sign, or a sign, the digits read as one integer, and a power of ten. -/
inductive StrNumericLiteral where
  | infinity (negative : Bool)
  | decimal (negative : Bool) (digits : Nat) (exponent : ℤ)
  deriving DecidableEq

/-- The Number denoted by a literal. -/
def StrNumericLiteral.value : StrNumericLiteral → JSNum
  | .infinity false => JSNum.posInf
  | .infinity true => JSNum.negInf
  | .decimal false n e => JSNum.fin ((n : ℚ) * 10 ^ e)
  | .decimal true n e => JSNum.fin (-((n : ℚ) * 10 ^ e))

/-- The nonterminal `SignedInteger` of an exponent part. -/
def signedInteger : List Char → Option ℤ
  | '+' :: ds => (nonEmptyDigits 10 ds).map Int.ofNat
  | '-' :: ds => (nonEmptyDigits 10 ds).map (fun n => - Int.ofNat n)
  | ds => (nonEmptyDigits 10 ds).map Int.ofNat

/-- The mantissa `DecimalDigits . DecimalDigits?`, `. DecimalDigits` or `DecimalDigits`:
its digits read as one integer, and the number of digits after the point. -/
def mantissa (cs : List Char) : Option (Nat × Nat) :=
  match cs.span (fun c => c ≠ '.') with
  | (ip, []) => (nonEmptyDigits 10 ip).map (fun n => (n, 0))
  | (ip, _ :: fp) =>
    if ip = [] ∧ fp = [] then none
    else (digitsValue 10 (ip ++ fp) 0).map (fun n => (n, fp.length))

/-- The nonterminal `StrUnsignedDecimalLiteral`, under the given sign. -/
def strUnsignedDecimalLiteral (negative : Bool) (cs : List Char) : Option StrNumericLiteral :=
  if cs = "Infinity".data then some (.infinity negative)
  else
    match cs.span (fun c => c ≠ 'e' ∧ c ≠ 'E') with
    | (m, []) => (mantissa m).map (fun p => .decimal negative p.1 (-(Int.ofNat p.2)))
    | (m, _ :: ex) =>
      (mantissa m).bind (fun p =>
        (signedInteger ex).map (fun e => .decimal negative p.1 (e - Int.ofNat p.2)))

/-- The nonterminal `StrDecimalLiteral`: an optional sign, then an unsigned literal. -/
def strDecimalLiteral : List Char → Option StrNumericLiteral
  | '+' :: cs => strUnsignedDecimalLiteral false cs
  | '-' :: cs => strUnsignedDecimalLiteral true cs
  | cs => strUnsignedDecimalLiteral false cs

/-- The nonterminal `NonDecimalIntegerLiteral`: binary, octal or hexadecimal, unsigned. -/
def nonDecimalIntegerLiteral : List Char → Option StrNumericLiteral
  | '0' :: p :: ds =>
    let radix : Option Nat :=
      if p = 'x' ∨ p = 'X' then some 16
      else if p = 'o' ∨ p = 'O' then some 8
      else if p = 'b' ∨ p = 'B' then some 2
      else none
    radix.bind (fun r => (nonEmptyDigits r ds).map (fun n => .decimal false n 0))
  | _ => none

/-- The grammar `StringNumericLiteral`: white space is trimmed and the empty text reads as
`0`; `none` when the text is outside the grammar. -/
def stringNumericLiteral (s : String) : Option StrNumericLiteral :=
  let cs := trimWhiteSpace s.data
  if cs = [] then some (.decimal false 0 0)
  else
    match nonDecimalIntegerLiteral cs with
    | some v => some v
    | none => strDecimalLiteral cs

/-- The abstract operation `StringToNumber`: a text outside the grammar is `NaN`. -/
def stringToNumber (s : String) : JSNum :=
  match stringNumericLiteral s with
  | some v => v.value
  | none => JSNum.nan

/-- The unary plus applied to a property value of a row: `+undefined` is `NaN`. -/
def toNumber : Option String → JSNum
  | none => JSNum.nan
  | some s => stringToNumber s

/-! ## Rows, records and the loader -/

/-- A parsed CSV row, an object whose properties are texts: the list of its properties, the
value of a property being the one listed first under its name. -/
abbrev Row := List (String × String)

/-- Property access `d[col]`: `none` is `undefined`. -/
def Row.get (d : Row) (col : String) : Option String :=
  d.lookup col

/-- The object returned by `cleanRow`. -/
structure Record where
  category : Option String
  name : Option String
  prep : Option String
  calories : JSNum
  sugar : JSNum
  caffeine : Option JSNum
  deriving DecidableEq

/-- The function `cleanRow`: `none` is the `null` returned for a rejected row. -/
def cleanRow (d : Row) : Option Record :=
  let calories := toNumber (d.get "Calories")
  let sugar := toNumber (d.get " Sugars (g)")
  let caffeine := toNumber (d.get "Caffeine (mg)")
  let category := d.get "Beverage_category"
  let name := d.get "Beverage"
  let prep := d.get "Beverage_prep"
  if calories.isNaN || sugar.isNaN then none
  else
    some
      { category := category
        name := name
        prep := prep
        calories := calories
        sugar := sugar
        caffeine := if caffeine.isNaN then none else some caffeine }

/-- The working dataset of the loader:
`raw.map(cleanRow).filter(d => d !== null).filter(d => d.calories <= 600)`. -/
def loadData (raw : List Row) : List Record :=
  (((raw.map cleanRow).filter (fun d => d.isSome)).filterMap id).filter
    (fun d => JSNum.le d.calories (JSNum.fin 600))

/-! ## The filter and the scale domains of `updateChart` -/

/-- The values of the three controls, as `updateChart` reads them. -/
structure Controls where
  calorieSlider : String
  categorySelect : String
  colorBy : String
  deriving DecidableEq

/-- The list `filtered` of `updateChart`, for the threshold `maxCalories` and the value
`selectedCategory` of the category control. -/
def filterRecords (data : List Record) (maxCalories : JSNum) (selectedCategory : String) :
    List Record :=
  let filtered := data.filter (fun d => JSNum.le d.calories maxCalories)
  let filtered :=
    if selectedCategory ≠ "all" then
      filtered.filter (fun d => decide (d.category = some selectedCategory))
    else filtered
  if filtered.length = 0 then [] else filtered

/-- The function `d3.max` over the values an accessor returns: `undefined` (`none`) when no
value is comparable with itself. -/
def d3max (values : List JSNum) : Option JSNum :=
  values.foldl
    (fun max value =>
      match max with
      | none => if JSNum.ge value value then some value else none
      | some m => if JSNum.lt m value then some value else some m)
    none

/-- The expression `v || dflt` for a Number or `undefined` on the left. -/
def orDefault (v : Option JSNum) (dflt : JSNum) : JSNum :=
  match v with
  | some m => if m.truthy then m else dflt
  | none => dflt

/-- The domain given to `xScale`, before `nice()`. -/
def xDomain (data : List Record) : JSNum × JSNum :=
  (JSNum.fin 0, orDefault (d3max (data.map (fun d => d.calories))) (JSNum.fin 600))

/-- The domain given to `yScale`, before `nice()`. -/
def yDomain (data : List Record) : JSNum × JSNum :=
  (JSNum.fin 0, orDefault (d3max (data.map (fun d => d.sugar))) (JSNum.fin 100))

/-! ## Colour scales -/

/-- The palette `d3.schemeTableau10`. -/
def schemeTableau10 : List String :=
  ["#4e79a7", "#f28e2c", "#e15759", "#76b7b2", "#59a14f", "#edc949", "#af7aa1", "#ff9da7",
    "#9c755f", "#bab0ab"]

/-- The state of `colorScaleCategory`: its domain, in insertion order and without
duplicates. A category is a text or `undefined`. -/
abbrev OrdinalDomain := List (Option String)

/-- The index under which the scale holds `d`: its first position in the domain. -/
def indexIn (d : Option String) : OrdinalDomain → Nat
  | [] => 0
  | a :: dom => if a = d then 0 else indexIn d dom + 1

/-- The call `colorScaleCategory(d)`: the colour at the position of `d` in the domain,
modulo the palette; a value not in the domain is first pushed onto it. -/
def colorScaleCategory (dom : OrdinalDomain) (d : Option String) : String × OrdinalDomain :=
  if d ∈ dom then (schemeTableau10.getD (indexIn d dom % schemeTableau10.length) "", dom)
  else (schemeTableau10.getD (dom.length % schemeTableau10.length) "", dom ++ [d])

/-- What the script takes from its surroundings: the drawable size computed by `resizeSvg`,
and the d3 functions that only compute a pixel position or a colour. -/
structure Env where
  width : JSNum
  height : JSNum
  scaleLinearNice : JSNum × JSNum → JSNum × JSNum → JSNum → JSNum
  colorScaleCaffeine : JSNum → String
  interpolateYlOrRd : ℚ → String

/-- The callback of `.attr("fill", ...)` in `updateChart`, with the domain of
`colorScaleCategory` before and after the call. -/
def fillColor (env : Env) (colorBy : String) (dom : OrdinalDomain) (d : Record) :
    String × OrdinalDomain :=
  if colorBy = "Beverage_category" then colorScaleCategory dom d.category
  else
    match d.caffeine with
    | none => ("#b0b0b0", dom)
    | some c => if c.isNaN then ("#b0b0b0", dom) else (env.colorScaleCaffeine c, dom)

/-! ## The visual tree -/

/-- The value of an attribute: a number, a text, or the text `translate(x, y)`. -/
inductive AttrValue where
  | num (n : ℤ)
  | str (s : String)
  | translate (x y : ℤ)
  deriving DecidableEq

/-- An element of the tree: tag, attributes, styles, text content and children. -/
inductive Node where
  | element (tag : String) (attrs : List (String × AttrValue)) (styles : List (String × String))
      (text : String) (children : List Node)

mutual
/-- Whether the element or one of its descendants has the tag. -/
def Node.hasTag (t : String) : Node → Bool
  | .element tag _ _ _ children => tag == t || Node.anyHasTag t children
/-- Whether an element of the list, or one of its descendants, has the tag. -/
def Node.anyHasTag (t : String) : List Node → Bool
  | [] => false
  | c :: cs => Node.hasTag t c || Node.anyHasTag t cs
end

/-- A `circle` of the main group: its bound datum and the attributes the script sets. -/
structure Circle where
  datum : Record
  cx : JSNum
  cy : JSNum
  r : ℚ
  opacity : ℚ
  fill : Option String
  deriving DecidableEq

/-- The mutable state the script works on: the circles of the main group in document order,
the children of the legend group, the children appended to the svg root after the two
groups, and the domain of `colorScaleCategory`. -/
structure State where
  circles : List Circle
  legend : List Node
  svgAppended : List Node
  categoryDomain : OrdinalDomain

/-! ## The legend -/

/-- The title of the legend: a `text` at the origin, in semi-bold. -/
def legendTitle (title : String) : Node :=
  .element "text" [("x", .num 0), ("y", .num 0)] [("font-weight", "600")] title []

/-- The row of the categorical legend for the `i`-th category `d`: a group holding the
swatch and the label (`.text(undefined)` leaves the label empty). -/
def legendRow (i : Nat) (d : Option String) (color : String) : Node :=
  .element "g" [("transform", .translate 0 (10 + Int.ofNat i * 16))] [] ""
    [.element "rect"
        [("x", .num 0), ("y", .num (-10)), ("width", .num 10), ("height", .num 10),
          ("fill", .str color)] [] "" [],
      .element "text" [("x", .num 16), ("y", .num 0), ("dominant-baseline", .str "central")]
        [] (d.getD "") []]

/-- The rows appended for the categories `cats`, numbered from `i`, each asking
`colorScaleCategory` for its colour. -/
def legendRows : List (Option String) → Nat → OrdinalDomain → List Node × OrdinalDomain
  | [], _, dom => ([], dom)
  | d :: ds, i, dom =>
    let colored := colorScaleCategory dom d
    let rest := legendRows ds (i + 1) colored.2
    (legendRow i d colored.1 :: rest.1, rest.2)

/-- The three stops of the gradient. -/
def gradientStops : List (String × ℚ) :=
  [("0%", 0), ("50%", 1 / 2), ("100%", 1)]

/-- The `defs` element that `drawLegend` builds in caffeine mode. -/
def gradientDefs (env : Env) : Node :=
  .element "defs" [] [] ""
    [.element "linearGradient"
      [("id", .str "caffeine-gradient"), ("x1", .str "0%"), ("x2", .str "100%")] [] ""
      (gradientStops.map (fun s =>
        .element "stop"
          [("offset", .str s.1), ("stop-color", .str (env.interpolateYlOrRd s.2))] [] "" []))]

/-- The function `drawLegend`. The legend group is emptied; in category mode the title and
one row per category of the domain are appended to it; otherwise the title, the gradient
bar and the two end labels are appended to it, and the `defs` to the svg root. -/
def drawLegend (env : Env) (colorBy : String) (s : State) : State :=
  if colorBy = "Beverage_category" then
    let rows := legendRows s.categoryDomain 0 s.categoryDomain
    { s with
      legend := legendTitle "Color: Category" :: rows.1
      categoryDomain := rows.2 }
  else
    { s with
      legend :=
        [legendTitle "Color: Caffeine (mg)",
          .element "rect" [("x", .num 0), ("y", .num 10), ("width", .num 100),
            ("height", .num 12)] [("fill", "url(#caffeine-gradient)")] "" [],
          .element "text" [("x", .num 0), ("y", .num 34), ("font-size", .num 10)] [] "Low" [],
          .element "text" [("x", .num 80), ("y", .num 34), ("font-size", .num 10),
            ("text-anchor", .str "end")] [] "High" []]
      svgAppended := s.svgAppended ++ [gradientDefs env] }

/-! ## The data join and `updateChart` -/

/-- The key `d.name + d.prep` as the join reads it (converted to text): an `undefined`
operand next to a text reads `undefined`, and two `undefined` operands add up to `NaN`. -/
def keyOf (d : Record) : String :=
  match d.name, d.prep with
  | some n, some p => n ++ p
  | some n, none => n ++ "undefined"
  | none, some p => "undefined" ++ p
  | none, none => "NaN"

/-- First loop of the keyed join: the map from key to node, filled in document order from
position `j`; a node whose key is already in the map is left out (it exits). -/
def nodeByKeyValue : List Circle → Nat → List (String × Nat × Circle) →
    List (String × Nat × Circle)
  | [], _, m => m
  | node :: group, j, m =>
    if (m.lookup (keyOf node.datum)).isSome then nodeByKeyValue group (j + 1) m
    else nodeByKeyValue group (j + 1) (m ++ [(keyOf node.datum, j, node)])

/-- Second loop of the keyed join: each datum takes the node found under its key, which is
then deleted from the map (the datum updates that node), or none (the datum enters). -/
def bindData : List Record → List (String × Nat × Circle) →
    List (Record × Option (Nat × Circle))
  | [], _ => []
  | d :: ds, m =>
    match m.lookup (keyOf d) with
    | some slot => (d, some slot) :: bindData ds (m.filter (fun e => e.1 ≠ keyOf d))
    | none => (d, none) :: bindData ds m

/-- The join `g.selectAll("circle").data(filtered, d => d.name + d.prep)`: for every datum,
in order, the node it updates with the position of that node in the document, or none. The
nodes that no datum takes are the exit selection. -/
def bindKey (group : List Circle) (data : List Record) :
    List (Record × Option (Nat × Circle)) :=
  bindData data (nodeByKeyValue group 0 [])

/-- The end state of the merged selection, datum by datum: an entering datum gets a new
circle (`r` 0, `opacity` 0.85), an updating one keeps its node with the new datum; the
transition then leaves `cx`, `cy`, `r` 5 and the fill. The fill callbacks run in the order of
the selection, on the domain of `colorScaleCategory` left by the previous one. -/
def settle (env : Env) (colorBy : String) (data : List Record) :
    List (Record × Option (Nat × Circle)) → OrdinalDomain →
      List (Circle × Option Nat) × OrdinalDomain
  | [], dom => ([], dom)
  | (d, slot) :: rest, dom =>
    let x := env.scaleLinearNice (xDomain data) (JSNum.fin 0, env.width) d.calories
    let y := env.scaleLinearNice (yDomain data) (env.height, JSNum.fin 0) d.sugar
    let filled := fillColor env colorBy dom d
    let node : Circle :=
      match slot with
      | some (_, node) => { node with datum := d }
      | none => { datum := d, cx := x, cy := y, r := 0, opacity := 0.85, fill := none }
    let settled := settle env colorBy data rest filled.2
    (({ node with cx := x, cy := y, r := 5, fill := some filled.1 }, slot.map (fun p => p.1))
      :: settled.1, settled.2)

/-- The runs of the merged selection: every updated node with the position it keeps in the
document, preceded by the entered nodes inserted before it (those of the data just before
its datum); and the entered nodes after the last updated one, appended at the end. -/
def segments : List (Circle × Option Nat) → List Circle → List (Nat × List Circle) × List Circle
  | [], acc => ([], acc)
  | (c, none) :: rest, acc => segments rest (acc ++ [c])
  | (c, some j) :: rest, acc =>
    let tail := segments rest []
    ((j, acc ++ [c]) :: tail.1, tail.2)

/-- The circles of the main group in document order once the exit selection is removed:
the updated nodes stay in their order, each entered node sits before its `_next`. -/
def documentOrder (marks : List (Circle × Option Nat)) : List Circle :=
  let runs := segments marks []
  ((runs.1.insertionSort (fun a b => a.1 ≤ b.1)).map (fun run => run.2)).flatten ++ runs.2

/-- The function `updateChart`, taken to the end of its transitions. The legend is drawn
during the call, the fill callbacks run when the transition starts. -/
def updateChart (env : Env) (ctl : Controls) (data : List Record) (s : State) : State :=
  let maxCalories := stringToNumber ctl.calorieSlider
  let selectedCategory := ctl.categorySelect
  let colorBy := ctl.colorBy
  let filtered := filterRecords data maxCalories selectedCategory
  let joined := bindKey s.circles filtered
  let drawn := drawLegend env colorBy s
  let settled := settle env colorBy data joined drawn.categoryDomain
  { drawn with
    circles := documentOrder settled.1
    categoryDomain := settled.2 }

/-- What a mark shows: its datum, its position, its radius and its fill. -/
def Circle.mark (c : Circle) : Record × JSNum × JSNum × ℚ × Option String :=
  (c.datum, c.cx, c.cy, c.r, c.fill)

/-- The marks `updateChart` aims at, for the filtered records in order: each at the position
its scales give, with radius 5 and the fill of the callback, the callbacks running in order
on the domain of `colorScaleCategory`. -/
def settledMarks (env : Env) (colorBy : String) (data : List Record) :
    List Record → OrdinalDomain →
      List (Record × JSNum × JSNum × ℚ × Option String) × OrdinalDomain
  | [], dom => ([], dom)
  | d :: ds, dom =>
    let filled := fillColor env colorBy dom d
    let rest := settledMarks env colorBy data ds filled.2
    ((d, env.scaleLinearNice (xDomain data) (JSNum.fin 0, env.width) d.calories,
        env.scaleLinearNice (yDomain data) (env.height, JSNum.fin 0) d.sugar, 5,
        some filled.1) :: rest.1, rest.2)

/-! ## Sample inputs -/

/-- The record `cleanRow` builds from a row it accepts. -/
def recordOf (d : Row) : Record :=
  { category := d.get "Beverage_category"
    name := d.get "Beverage"
    prep := d.get "Beverage_prep"
    calories := toNumber (d.get "Calories")
    sugar := toNumber (d.get " Sugars (g)")
    caffeine :=
      if (toNumber (d.get "Caffeine (mg)")).isNaN then none
      else some (toNumber (d.get "Caffeine (mg)")) }

/-- A row whose caffeine cell is empty. -/
def latteRow : Row :=
  [("Beverage_category", "Classic Espresso"), ("Beverage", "Latte"),
    ("Beverage_prep", "Grande"), ("Calories", "80"), (" Sugars (g)", "10"),
    ("Caffeine (mg)", "")]

/-- A row whose sugar cell reads `Infinity`. -/
def infiniteSugarRow : Row :=
  [("Beverage_category", "Tea"), ("Beverage", "Chai"), ("Beverage_prep", "Tall"),
    ("Calories", "10"), (" Sugars (g)", "Infinity"), ("Caffeine (mg)", "5")]

/-- A row whose caffeine cell reads `Infinity`. -/
def infiniteCaffeineRow : Row :=
  [("Beverage_category", "Coffee"), ("Beverage", "Brewed"), ("Beverage_prep", "Short"),
    ("Calories", "10"), (" Sugars (g)", "0"), ("Caffeine (mg)", "Infinity")]

/-- A row whose calories cell is negative. -/
def negativeCaloriesRow : Row :=
  [("Beverage_category", "Tea"), ("Beverage", "Iced"), ("Beverage_prep", "Tall"),
    ("Calories", "-5"), (" Sugars (g)", "1"), ("Caffeine (mg)", "0")]

/-- A record with no calories and no sugar. -/
def zeroRecord : Record :=
  { category := some "Tea", name := some "Water", prep := some "Tall",
    calories := JSNum.fin 0, sugar := JSNum.fin 0, caffeine := some (JSNum.fin 0) }

/-- An environment: a drawable area of 580 by 420, scales that are the identity, and
colour functions that always answer the palest colour of the ramp. -/
def sampleEnv : Env :=
  { width := JSNum.fin 580
    height := JSNum.fin 420
    scaleLinearNice := fun _ _ v => v
    colorScaleCaffeine := fun _ => "rgb(255, 255, 204)"
    interpolateYlOrRd := fun _ => "rgb(255, 255, 204)" }

/-- The state before the first render: no circle, an empty legend, nothing appended to the
svg root, and the domain of the two categories `Coffee` and `Tea`. -/
def initialState : State :=
  { circles := [], legend := [], svgAppended := [],
    categoryDomain := [some "Coffee", some "Tea"] }

/-! ## Conversion of the sample texts -/

theorem toNumber_empty : toNumber (some "") = JSNum.fin 0 := by
  simp [toNumber, stringToNumber,
    show stringNumericLiteral "" = some (.decimal false 0 0) by decide,
    StrNumericLiteral.value]

theorem toNumber_0 : toNumber (some "0") = JSNum.fin 0 := by
  simp [toNumber, stringToNumber,
    show stringNumericLiteral "0" = some (.decimal false 0 0) by decide,
    StrNumericLiteral.value]

theorem toNumber_1 : toNumber (some "1") = JSNum.fin 1 := by
  simp [toNumber, stringToNumber,
    show stringNumericLiteral "1" = some (.decimal false 1 0) by decide,
    StrNumericLiteral.value]

theorem toNumber_10 : toNumber (some "10") = JSNum.fin 10 := by
  simp [toNumber, stringToNumber,
    show stringNumericLiteral "10" = some (.decimal false 10 0) by decide,
    StrNumericLiteral.value]

theorem toNumber_80 : toNumber (some "80") = JSNum.fin 80 := by
  simp [toNumber, stringToNumber,
    show stringNumericLiteral "80" = some (.decimal false 80 0) by decide,
    StrNumericLiteral.value]

theorem toNumber_neg5 : toNumber (some "-5") = JSNum.fin (-5) := by
  simp [toNumber, stringToNumber,
    show stringNumericLiteral "-5" = some (.decimal true 5 0) by decide,
    StrNumericLiteral.value]

theorem toNumber_Infinity : toNumber (some "Infinity") = JSNum.posInf := by
  decide

/-! ## The loader -/

theorem filterMap_id_filter_isSome {α : Type} (l : List (Option α)) :
    (l.filter (fun d => d.isSome)).filterMap id = l.filterMap id := by
  induction l with
  | nil => rfl
  | cons a l ih => cases a <;> simp [List.filter_cons, ih]

theorem loadData_eq (raw : List Row) :
    loadData raw =
      (raw.filterMap cleanRow).filter (fun d => JSNum.le d.calories (JSNum.fin 600)) := by
  unfold loadData
  rw [filterMap_id_filter_isSome]
  simp [List.filterMap_map]

theorem loadData_append (a b : List Row) : loadData (a ++ b) = loadData a ++ loadData b := by
  simp [loadData_eq, List.filterMap_append]

theorem cleanRow_eq (d : Row) :
    cleanRow d =
      if (toNumber (d.get "Calories")).isNaN = false ∧
          (toNumber (d.get " Sugars (g)")).isNaN = false then some (recordOf d)
      else none := by
  unfold cleanRow recordOf
  cases h1 : (toNumber (d.get "Calories")).isNaN <;>
    cases h2 : (toNumber (d.get " Sugars (g)")).isNaN <;> simp [h1, h2]

theorem loadData_singleton (d : Row) :
    loadData [d] =
      if (toNumber (d.get "Calories")).isNaN = false ∧
          (toNumber (d.get " Sugars (g)")).isNaN = false ∧
          JSNum.le (toNumber (d.get "Calories")) (JSNum.fin 600) = true then [recordOf d]
      else [] := by
  rw [loadData_eq]
  simp only [List.filterMap_cons, List.filterMap_nil, cleanRow_eq]
  cases h1 : (toNumber (d.get "Calories")).isNaN <;>
    cases h2 : (toNumber (d.get " Sugars (g)")).isNaN <;>
    cases h3 : JSNum.le (toNumber (d.get "Calories")) (JSNum.fin 600) <;>
    simp [List.filter_cons, recordOf, h3]

theorem mem_loadData {raw : List Row} {r : Record} (h : r ∈ loadData raw) :
    ∃ d ∈ raw, cleanRow d = some r ∧ JSNum.le r.calories (JSNum.fin 600) = true := by
  rw [loadData_eq, List.mem_filter, List.mem_filterMap] at h
  obtain ⟨⟨d, hd, hc⟩, hle⟩ := h
  exact ⟨d, hd, hc, hle⟩

/-- C1 (as amended). A row contributes to the working dataset exactly one record, at its
place, when neither its calories nor its sugar converts to `NaN` and the converted calories
are `<= 600`, and nothing otherwise. -/
theorem loadData_row (before after : List Row) (d : Row) :
    loadData (before ++ d :: after) = loadData before ++ loadData [d] ++ loadData after ∧
      loadData [d] =
        if (toNumber (d.get "Calories")).isNaN = false ∧
            (toNumber (d.get " Sugars (g)")).isNaN = false ∧
            JSNum.le (toNumber (d.get "Calories")) (JSNum.fin 600) = true then [recordOf d]
        else [] := by
  refine ⟨?_, loadData_singleton d⟩
  rw [show before ++ d :: after = before ++ ([d] ++ after) from rfl, loadData_append,
    loadData_append, List.append_assoc]

/-- C1 (counterexample). The row whose sugar reads `Infinity` is kept in the working
dataset although its sugar does not convert to a finite number. -/
theorem infiniteSugarRow_kept :
    loadData [infiniteSugarRow] = [recordOf infiniteSugarRow] ∧
      (toNumber (infiniteSugarRow.get " Sugars (g)")).isFinite = false ∧
      ¬ (loadData [infiniteSugarRow] ≠ [] ↔
        ((toNumber (infiniteSugarRow.get "Calories")).isFinite = true ∧
          (toNumber (infiniteSugarRow.get " Sugars (g)")).isFinite = true ∧
          JSNum.le (toNumber (infiniteSugarRow.get "Calories")) (JSNum.fin 600) = true)) := by
  have hc : infiniteSugarRow.get "Calories" = some "10" := by decide
  have hs : infiniteSugarRow.get " Sugars (g)" = some "Infinity" := by decide
  have hl : loadData [infiniteSugarRow] = [recordOf infiniteSugarRow] := by
    rw [loadData_singleton, hc, hs, toNumber_10, toNumber_Infinity]
    norm_num [JSNum.isNaN, JSNum.le]
  refine ⟨hl, ?_, ?_⟩
  · rw [hs, toNumber_Infinity]; rfl
  · rw [hl, hs, toNumber_Infinity]
    simp [JSNum.isFinite]

/-- C2 (the code at the failing input). For the row whose caffeine cell is empty, `cleanRow`
returns a record whose caffeine is the number 0, not `null`. -/
theorem cleanRow_latteRow :
    cleanRow latteRow =
      some
        { category := some "Classic Espresso", name := some "Latte", prep := some "Grande",
          calories := JSNum.fin 80, sugar := JSNum.fin 10, caffeine := some (JSNum.fin 0) } := by
  have hc : latteRow.get "Calories" = some "80" := by decide
  have hs : latteRow.get " Sugars (g)" = some "10" := by decide
  have hf : latteRow.get "Caffeine (mg)" = some "" := by decide
  have h1 : latteRow.get "Beverage_category" = some "Classic Espresso" := by decide
  have h2 : latteRow.get "Beverage" = some "Latte" := by decide
  have h3 : latteRow.get "Beverage_prep" = some "Grande" := by decide
  rw [cleanRow_eq]
  simp [recordOf, hc, hs, hf, h1, h2, h3, toNumber_80, toNumber_10, toNumber_empty,
    JSNum.isNaN]

/-- C3 (as amended). In every record of the working dataset, caffeine is `null` or a number
that is not `NaN`. -/
theorem loadData_caffeine (raw : List Row) (r : Record) (h : r ∈ loadData raw) :
    r.caffeine = none ∨ ∃ c, r.caffeine = some c ∧ c.isNaN = false := by
  obtain ⟨d, -, hc, -⟩ := mem_loadData h
  rw [cleanRow_eq] at hc
  split at hc
  · cases hc
    unfold recordOf
    cases hn : (toNumber (d.get "Caffeine (mg)")).isNaN <;> simp [hn]
  · cases hc

/-- C3 (counterexample). The row whose caffeine reads `Infinity` gives a record of the
working dataset whose caffeine is an infinity. -/
theorem infiniteCaffeineRow_kept :
    ∃ r ∈ loadData [infiniteCaffeineRow], r.caffeine = some JSNum.posInf := by
  have hc : infiniteCaffeineRow.get "Calories" = some "10" := by decide
  have hs : infiniteCaffeineRow.get " Sugars (g)" = some "0" := by decide
  have hf : infiniteCaffeineRow.get "Caffeine (mg)" = some "Infinity" := by decide
  refine ⟨recordOf infiniteCaffeineRow, ?_, ?_⟩
  · rw [loadData_singleton, hc, hs, toNumber_10, toNumber_0]
    norm_num [JSNum.isNaN, JSNum.le]
  · simp [recordOf, hf, toNumber_Infinity, JSNum.isNaN]

/-- C3 (witness). The record of the row whose caffeine cell is empty. -/
theorem loadData_caffeine_witness :
    recordOf latteRow ∈ loadData [latteRow] ∧
      ((recordOf latteRow).caffeine = none ∨
        ∃ c, (recordOf latteRow).caffeine = some c ∧ c.isNaN = false) := by
  have hc : latteRow.get "Calories" = some "80" := by decide
  have hs : latteRow.get " Sugars (g)" = some "10" := by decide
  have hm : recordOf latteRow ∈ loadData [latteRow] := by
    rw [loadData_singleton, hc, hs, toNumber_80, toNumber_10]
    norm_num [JSNum.isNaN, JSNum.le]
  exact ⟨hm, loadData_caffeine [latteRow] (recordOf latteRow) hm⟩

/-! ## The order of numbers -/

theorem jsle_trans {a b c : JSNum} (hab : JSNum.le a b = true) (hbc : JSNum.le b c = true) :
    JSNum.le a c = true := by
  cases a <;> cases b <;> cases c <;> simp_all [JSNum.le]
  exact le_trans hab hbc

theorem jsle_of_lt {a b : JSNum} (h : JSNum.lt a b = true) : JSNum.le a b = true := by
  cases a <;> cases b <;> simp_all [JSNum.le, JSNum.lt]
  exact le_of_lt h

theorem jsle_of_not_lt {a b : JSNum} (ha : a.isNaN = false) (hb : b.isNaN = false)
    (h : JSNum.lt a b = false) : JSNum.le b a = true := by
  cases a <;> cases b <;> simp_all [JSNum.le, JSNum.lt, JSNum.isNaN]

theorem jsle_refl {a : JSNum} (ha : a.isNaN = false) : JSNum.le a a = true := by
  cases a <;> simp_all [JSNum.le, JSNum.isNaN]

/-! ## The filter of `updateChart` -/

theorem filterRecords_eq (data : List Record) (maxCalories : JSNum) (selectedCategory : String) :
    filterRecords data maxCalories selectedCategory =
      data.filter (fun d =>
        JSNum.le d.calories maxCalories &&
          (decide (selectedCategory = "all") || decide (d.category = some selectedCategory))) := by
  unfold filterRecords
  by_cases hs : selectedCategory = "all"
  · simp only [hs, ne_eq, not_true_eq_false, if_false, decide_True, Bool.true_or, Bool.and_true]
    split
    · next h => exact (List.length_eq_zero.mp h).symm
    · rfl
  · simp only [hs, ne_eq, not_false_eq_true, if_true, decide_False, Bool.false_or,
      List.filter_filter]
    have hp : (fun d : Record =>
        decide (d.category = some selectedCategory) && JSNum.le d.calories maxCalories) =
        (fun d : Record =>
          JSNum.le d.calories maxCalories && decide (d.category = some selectedCategory)) := by
      funext d; exact Bool.and_comm _ _
    rw [hp]
    split
    · next h => exact (List.length_eq_zero.mp h).symm
    · rfl

/-- C4. The filtered list of `updateChart` is the sub-sequence of the dataset, in order, of the
records with `calories <= maxCalories` whose category is the selected one, or all of them
when the selection is the text `all` (the category then plays no part). -/
theorem filterRecords_spec (data : List Record) (maxCalories : JSNum)
    (selectedCategory : String) :
    filterRecords data maxCalories selectedCategory =
        data.filter (fun d =>
          JSNum.le d.calories maxCalories &&
            (decide (selectedCategory = "all") ||
              decide (d.category = some selectedCategory))) ∧
      (filterRecords data maxCalories selectedCategory).Sublist data ∧
      filterRecords data maxCalories "all" =
        data.filter (fun d => JSNum.le d.calories maxCalories) := by
  refine ⟨filterRecords_eq data maxCalories selectedCategory, ?_, ?_⟩
  · rw [filterRecords_eq]; exact List.filter_sublist data
  · rw [filterRecords_eq]; simp

/-- C9. Raising the threshold keeps every record: for `m1 <= m2` the filtered list at `m1` is
a sub-sequence of the filtered list at `m2`. -/
theorem filterRecords_mono (data : List Record) (m1 m2 : JSNum) (selectedCategory : String)
    (h : JSNum.le m1 m2 = true) :
    (filterRecords data m1 selectedCategory).Sublist (filterRecords data m2 selectedCategory) ∧
      ∀ d ∈ filterRecords data m1 selectedCategory,
        d ∈ filterRecords data m2 selectedCategory := by
  have hsub : (filterRecords data m1 selectedCategory).Sublist
      (filterRecords data m2 selectedCategory) := by
    rw [filterRecords_eq, filterRecords_eq]
    apply List.monotone_filter_right
    intro d hd
    simp only [Bool.and_eq_true] at hd ⊢
    exact ⟨jsle_trans hd.1 h, hd.2⟩
  exact ⟨hsub, fun d hd => hsub.subset hd⟩

/-- C9 (witness). The thresholds 0 and 600 on the one-record dataset. -/
theorem filterRecords_mono_witness :
    JSNum.le (JSNum.fin 0) (JSNum.fin 600) = true ∧
      ((filterRecords [zeroRecord] (JSNum.fin 0) "all").Sublist
          (filterRecords [zeroRecord] (JSNum.fin 600) "all") ∧
        ∀ d ∈ filterRecords [zeroRecord] (JSNum.fin 0) "all",
          d ∈ filterRecords [zeroRecord] (JSNum.fin 600) "all") :=
  ⟨by norm_num [JSNum.le],
    filterRecords_mono [zeroRecord] (JSNum.fin 0) (JSNum.fin 600) "all"
      (by norm_num [JSNum.le])⟩

/-! ## The scale domains -/

theorem d3max_foldl (vals : List JSNum) (hv : ∀ v ∈ vals, v.isNaN = false) (m : JSNum)
    (hm : m.isNaN = false) :
    ∃ M, vals.foldl
        (fun max value =>
          match max with
          | none => if JSNum.ge value value then some value else none
          | some m => if JSNum.lt m value then some value else some m)
        (some m) = some M ∧
      (M = m ∨ M ∈ vals) ∧ JSNum.le m M = true ∧ ∀ v ∈ vals, JSNum.le v M = true := by
  induction vals generalizing m with
  | nil => exact ⟨m, rfl, Or.inl rfl, jsle_refl hm, by simp⟩
  | cons v vs ih =>
    have hvn : v.isNaN = false := hv v (List.mem_cons_self _ _)
    have hvs : ∀ w ∈ vs, w.isNaN = false := fun w hw => hv w (List.mem_cons_of_mem _ hw)
    simp only [List.foldl_cons]
    cases hlt : JSNum.lt m v
    · obtain ⟨M, hM, hmem, hle, hall⟩ := ih hvs m hm
      refine ⟨M, by simpa using hM, ?_, hle, ?_⟩
      · rcases hmem with h | h
        · exact Or.inl h
        · exact Or.inr (List.mem_cons_of_mem _ h)
      · intro w hw
        rcases List.mem_cons.mp hw with h | h
        · subst h; exact jsle_trans (jsle_of_not_lt hm hvn hlt) hle
        · exact hall w h
    · obtain ⟨M, hM, hmem, hle, hall⟩ := ih hvs v hvn
      refine ⟨M, by simpa using hM, ?_, jsle_trans (jsle_of_lt hlt) hle, ?_⟩
      · rcases hmem with h | h
        · exact Or.inr (h ▸ List.mem_cons_self _ _)
        · exact Or.inr (List.mem_cons_of_mem _ h)
      · intro w hw
        rcases List.mem_cons.mp hw with h | h
        · subst h; exact hle
        · exact hall w h

theorem d3max_cons (v : JSNum) (vs : List JSNum) (hv : ∀ w ∈ v :: vs, w.isNaN = false) :
    ∃ M ∈ v :: vs, d3max (v :: vs) = some M ∧ ∀ w ∈ v :: vs, JSNum.le w M = true := by
  have hvn : v.isNaN = false := hv v (List.mem_cons_self _ _)
  have hvs : ∀ w ∈ vs, w.isNaN = false := fun w hw => hv w (List.mem_cons_of_mem _ hw)
  obtain ⟨M, hM, hmem, hle, hall⟩ := d3max_foldl vs hvs v hvn
  refine ⟨M, ?_, ?_, ?_⟩
  · rcases hmem with h | h
    · exact h ▸ List.mem_cons_self _ _
    · exact List.mem_cons_of_mem _ h
  · unfold d3max
    simp only [List.foldl_cons, JSNum.ge, jsle_refl hvn, if_true]
    exact hM
  · intro w hw
    rcases List.mem_cons.mp hw with h | h
    · subst h; exact hle
    · exact hall w h

theorem orDefault_some (M dflt : JSNum) (hM : M.isNaN = false) :
    orDefault (some M) dflt = if M = JSNum.fin 0 then dflt else M := by
  cases M <;> simp_all [orDefault, JSNum.truthy, JSNum.isNaN]

theorem d3max_map (data : List Record) (f : Record → JSNum) (hne : data ≠ [])
    (h : ∀ d ∈ data, (f d).isNaN = false) :
    ∃ dM ∈ data, d3max (data.map f) = some (f dM) ∧ ∀ d ∈ data, JSNum.le (f d) (f dM) = true := by
  cases data with
  | nil => exact absurd rfl hne
  | cons d ds =>
    have hv : ∀ w ∈ f d :: ds.map f, w.isNaN = false := by
      intro w hw
      rw [← List.map_cons, List.mem_map] at hw
      obtain ⟨e, he, rfl⟩ := hw
      exact h e he
    obtain ⟨M, hmem, hM, hall⟩ := d3max_cons (f d) (ds.map f) hv
    rw [← List.map_cons, List.mem_map] at hmem
    obtain ⟨dM, hdM, rfl⟩ := hmem
    refine ⟨dM, hdM, by simpa using hM, ?_⟩
    intro e he
    exact hall (f e) (by rw [← List.map_cons]; exact List.mem_map_of_mem f he)

/-- C7 (as amended). For a dataset whose calories and sugar are never `NaN`: if it is empty the
domains are `[0, 600]` and `[0, 100]`; otherwise, with `M` the largest calories and `S` the
largest sugar of the whole dataset, the calorie domain is `[0, M]`, or `[0, 600]` when `M` is
0, and the sugar domain is `[0, S]`, or `[0, 100]` when `S` is 0. -/
theorem scaleDomains (data : List Record)
    (h : ∀ d ∈ data, d.calories.isNaN = false ∧ d.sugar.isNaN = false) :
    (data = [] ∧ xDomain data = (JSNum.fin 0, JSNum.fin 600) ∧
        yDomain data = (JSNum.fin 0, JSNum.fin 100)) ∨
      ∃ dM ∈ data, ∃ dS ∈ data,
        (∀ d ∈ data, JSNum.le d.calories dM.calories = true) ∧
        (∀ d ∈ data, JSNum.le d.sugar dS.sugar = true) ∧
        xDomain data =
          (JSNum.fin 0, if dM.calories = JSNum.fin 0 then JSNum.fin 600 else dM.calories) ∧
        yDomain data =
          (JSNum.fin 0, if dS.sugar = JSNum.fin 0 then JSNum.fin 100 else dS.sugar) := by
  by_cases hne : data = []
  · left
    subst hne
    exact ⟨rfl, rfl, rfl⟩
  · right
    obtain ⟨dM, hdM, hM, hMall⟩ := d3max_map data (fun d => d.calories) hne (fun d hd => (h d hd).1)
    obtain ⟨dS, hdS, hS, hSall⟩ := d3max_map data (fun d => d.sugar) hne (fun d hd => (h d hd).2)
    refine ⟨dM, hdM, dS, hdS, hMall, hSall, ?_, ?_⟩
    · unfold xDomain
      rw [hM, orDefault_some _ _ (h dM hdM).1]
    · unfold yDomain
      rw [hS, orDefault_some _ _ (h dS hdS).2]

/-- C7 (counterexample). A dataset that is not empty but whose largest calories and sugar
are 0 gets the default domains `[0, 600]` and `[0, 100]`, not `[0, 0]`. -/
theorem scaleDomains_zeroRecord :
    [zeroRecord] ≠ [] ∧ d3max ([zeroRecord].map (fun d => d.calories)) = some (JSNum.fin 0) ∧
      d3max ([zeroRecord].map (fun d => d.sugar)) = some (JSNum.fin 0) ∧
      xDomain [zeroRecord] = (JSNum.fin 0, JSNum.fin 600) ∧
      yDomain [zeroRecord] = (JSNum.fin 0, JSNum.fin 100) := by
  have hm : d3max [JSNum.fin 0] = some (JSNum.fin 0) := by
    simp [d3max, JSNum.ge, JSNum.le]
  refine ⟨by simp, ?_, ?_, ?_, ?_⟩
  · simpa [zeroRecord] using hm
  · simpa [zeroRecord] using hm
  · simp [xDomain, zeroRecord, hm, orDefault, JSNum.truthy]
  · simp [yDomain, zeroRecord, hm, orDefault, JSNum.truthy]

/-- C7 (witness). The one-record dataset of the counterexample. -/
theorem scaleDomains_witness :
    (∀ d ∈ [zeroRecord], d.calories.isNaN = false ∧ d.sugar.isNaN = false) ∧
      (([zeroRecord] = [] ∧ xDomain [zeroRecord] = (JSNum.fin 0, JSNum.fin 600) ∧
          yDomain [zeroRecord] = (JSNum.fin 0, JSNum.fin 100)) ∨
        ∃ dM ∈ [zeroRecord], ∃ dS ∈ [zeroRecord],
          (∀ d ∈ [zeroRecord], JSNum.le d.calories dM.calories = true) ∧
          (∀ d ∈ [zeroRecord], JSNum.le d.sugar dS.sugar = true) ∧
          xDomain [zeroRecord] =
            (JSNum.fin 0, if dM.calories = JSNum.fin 0 then JSNum.fin 600 else dM.calories) ∧
          yDomain [zeroRecord] =
            (JSNum.fin 0, if dS.sugar = JSNum.fin 0 then JSNum.fin 100 else dS.sugar)) :=
  ⟨by simp [zeroRecord, JSNum.isNaN],
    scaleDomains [zeroRecord] (by simp [zeroRecord, JSNum.isNaN])⟩

/-! ## The fill colour -/

/-- C8. In category mode the fill is the categorical scale applied to the category of the
record, whatever its caffeine; in another mode it is the fallback `#b0b0b0` exactly when the
caffeine is `null` or `NaN` (the sequential scale never answers that colour), and the
sequential scale applied to the caffeine otherwise. -/
theorem fillColor_spec (env : Env) (colorBy : String) (dom : OrdinalDomain) (d : Record)
    (hseq : ∀ c, env.colorScaleCaffeine c ≠ "#b0b0b0") :
    (colorBy = "Beverage_category" →
        fillColor env colorBy dom d = colorScaleCategory dom d.category) ∧
      (colorBy ≠ "Beverage_category" →
        ((fillColor env colorBy dom d).1 = "#b0b0b0" ↔
            (d.caffeine = none ∨ d.caffeine = some JSNum.nan)) ∧
          ((d.caffeine = none ∨ d.caffeine = some JSNum.nan) →
            fillColor env colorBy dom d = ("#b0b0b0", dom)) ∧
          ∀ c, d.caffeine = some c → c ≠ JSNum.nan →
            fillColor env colorBy dom d = (env.colorScaleCaffeine c, dom)) := by
  refine ⟨fun h => by simp [fillColor, h], fun h => ?_⟩
  unfold fillColor
  simp only [h, if_false]
  cases hc : d.caffeine with
  | none => simp
  | some c =>
    cases c with
    | nan => simp [JSNum.isNaN]
    | negInf => simp [JSNum.isNaN, hseq]
    | fin q => simp [JSNum.isNaN, hseq]
    | posInf => simp [JSNum.isNaN, hseq]

/-- C8 (witness). The sample environment, whose sequential scale answers an `rgb(...)` text. -/
theorem fillColor_spec_witness :
    (∀ c, sampleEnv.colorScaleCaffeine c ≠ "#b0b0b0") ∧
      ((("caffeine" : String) = "Beverage_category" →
          fillColor sampleEnv "caffeine" [] zeroRecord =
            colorScaleCategory [] zeroRecord.category) ∧
        (("caffeine" : String) ≠ "Beverage_category" →
          ((fillColor sampleEnv "caffeine" [] zeroRecord).1 = "#b0b0b0" ↔
              (zeroRecord.caffeine = none ∨ zeroRecord.caffeine = some JSNum.nan)) ∧
            ((zeroRecord.caffeine = none ∨ zeroRecord.caffeine = some JSNum.nan) →
              fillColor sampleEnv "caffeine" [] zeroRecord = ("#b0b0b0", [])) ∧
            ∀ c, zeroRecord.caffeine = some c → c ≠ JSNum.nan →
              fillColor sampleEnv "caffeine" [] zeroRecord =
                (sampleEnv.colorScaleCaffeine c, []))) :=
  ⟨fun _ => (by decide : ("rgb(255, 255, 204)" : String) ≠ "#b0b0b0"),
    fillColor_spec sampleEnv "caffeine" [] zeroRecord
      (fun _ => (by decide : ("rgb(255, 255, 204)" : String) ≠ "#b0b0b0"))⟩

/-! ## The legend -/

theorem colorScaleCategory_of_mem {dom : OrdinalDomain} {d : Option String} (h : d ∈ dom) :
    (colorScaleCategory dom d).2 = dom := by
  simp [colorScaleCategory, h]

theorem legendRows_domain (cats : List (Option String)) (i : Nat) (dom : OrdinalDomain)
    (h : ∀ c ∈ cats, c ∈ dom) : (legendRows cats i dom).2 = dom := by
  induction cats generalizing i with
  | nil => rfl
  | cons c cs ih =>
    simp only [legendRows]
    rw [colorScaleCategory_of_mem (h c (List.mem_cons_self _ _))]
    exact ih (i + 1) (fun e he => h e (List.mem_cons_of_mem _ he))

theorem drawLegend_categoryDomain (env : Env) (colorBy : String) (s : State) :
    (drawLegend env colorBy s).categoryDomain = s.categoryDomain := by
  unfold drawLegend
  split
  · exact legendRows_domain _ _ _ (fun _ h => h)
  · rfl

theorem anyHasTag_append (t : String) (a b : List Node) :
    Node.anyHasTag t (a ++ b) = (Node.anyHasTag t a || Node.anyHasTag t b) := by
  induction a with
  | nil => simp [Node.anyHasTag]
  | cons c cs ih => simp [Node.anyHasTag, ih, Bool.or_assoc]

/-- C6 (the code on the failing sequence). After a draw in category mode, one in another mode
and one in category mode again, the legend group is as after a single category draw, but the
`defs` with its gradient that the second draw appended to the svg root is still there: the
tree is not the one of a single category draw. -/
theorem drawLegend_gradient_remains (env : Env) (s : State) (other : String)
    (h : other ≠ "Beverage_category") :
    (drawLegend env "Beverage_category"
        (drawLegend env other (drawLegend env "Beverage_category" s))).legend =
        (drawLegend env "Beverage_category" s).legend ∧
      (drawLegend env "Beverage_category" s).svgAppended = s.svgAppended ∧
      (drawLegend env "Beverage_category"
        (drawLegend env other (drawLegend env "Beverage_category" s))).svgAppended =
        s.svgAppended ++ [gradientDefs env] ∧
      Node.anyHasTag "linearGradient"
        (drawLegend env "Beverage_category"
          (drawLegend env other (drawLegend env "Beverage_category" s))).svgAppended = true ∧
      drawLegend env "Beverage_category"
          (drawLegend env other (drawLegend env "Beverage_category" s)) ≠
        drawLegend env "Beverage_category" s := by
  have hd : (drawLegend env other (drawLegend env "Beverage_category" s)).categoryDomain =
      s.categoryDomain := by
    rw [drawLegend_categoryDomain, drawLegend_categoryDomain]
  have h1 : (drawLegend env "Beverage_category" s).svgAppended = s.svgAppended := by
    simp [drawLegend]
  have h3 : (drawLegend env "Beverage_category"
        (drawLegend env other (drawLegend env "Beverage_category" s))).svgAppended =
        s.svgAppended ++ [gradientDefs env] := by
    simp [drawLegend, h]
  refine ⟨?_, h1, h3, ?_, ?_⟩
  · have hl : ∀ t : State, (drawLegend env "Beverage_category" t).legend =
        legendTitle "Color: Category" :: (legendRows t.categoryDomain 0 t.categoryDomain).1 := by
      intro t; simp [drawLegend]
    rw [hl, hl, hd]
  · rw [h3, anyHasTag_append]
    simp [gradientDefs, Node.anyHasTag, Node.hasTag]
  · intro heq
    have hlen := congrArg (fun t : State => t.svgAppended.length) heq
    simp only [h1, h3, List.length_append, List.length_singleton] at hlen
    omega

/-- C6 (witness). The sequence category, `caffeine`, category from the initial state. -/
theorem drawLegend_gradient_remains_witness :
    ("caffeine" : String) ≠ "Beverage_category" ∧
      ((drawLegend sampleEnv "Beverage_category"
          (drawLegend sampleEnv "caffeine"
            (drawLegend sampleEnv "Beverage_category" initialState))).legend =
          (drawLegend sampleEnv "Beverage_category" initialState).legend ∧
        (drawLegend sampleEnv "Beverage_category" initialState).svgAppended =
          initialState.svgAppended ∧
        (drawLegend sampleEnv "Beverage_category"
          (drawLegend sampleEnv "caffeine"
            (drawLegend sampleEnv "Beverage_category" initialState))).svgAppended =
          initialState.svgAppended ++ [gradientDefs sampleEnv] ∧
        Node.anyHasTag "linearGradient"
          (drawLegend sampleEnv "Beverage_category"
            (drawLegend sampleEnv "caffeine"
              (drawLegend sampleEnv "Beverage_category" initialState))).svgAppended = true ∧
        drawLegend sampleEnv "Beverage_category"
            (drawLegend sampleEnv "caffeine"
              (drawLegend sampleEnv "Beverage_category" initialState)) ≠
          drawLegend sampleEnv "Beverage_category" initialState) :=
  ⟨by decide, drawLegend_gradient_remains sampleEnv initialState "caffeine" (by decide)⟩

/-! ## The data join and the marks -/

theorem bindData_fst (data : List Record) (m : List (String × Nat × Circle)) :
    (bindData data m).map Prod.fst = data := by
  induction data generalizing m with
  | nil => rfl
  | cons d ds ih =>
    simp only [bindData]
    split <;> simp [ih]

theorem settle_marks (env : Env) (colorBy : String) (data : List Record)
    (joined : List (Record × Option (Nat × Circle))) (dom : OrdinalDomain) :
    (settle env colorBy data joined dom).1.map (fun p => p.1.mark) =
        (settledMarks env colorBy data (joined.map Prod.fst) dom).1 ∧
      (settle env colorBy data joined dom).2 =
        (settledMarks env colorBy data (joined.map Prod.fst) dom).2 := by
  induction joined generalizing dom with
  | nil => exact ⟨rfl, rfl⟩
  | cons p rest ih =>
    obtain ⟨d, slot⟩ := p
    obtain ⟨h1, h2⟩ := ih (fillColor env colorBy dom d).2
    constructor
    · simp only [settle, settledMarks, List.map_cons, h1]
      cases slot <;> rfl
    · simp only [settle, settledMarks, List.map_cons, h2]

theorem segments_flatten (marks : List (Circle × Option Nat)) (acc : List Circle) :
    ((segments marks acc).1.map (fun run => run.2)).flatten ++ (segments marks acc).2 =
      acc ++ marks.map Prod.fst := by
  induction marks generalizing acc with
  | nil => simp [segments]
  | cons p rest ih =>
    obtain ⟨c, slot⟩ := p
    cases slot with
    | none =>
      simp only [segments, List.map_cons]
      rw [ih]
      simp
    | some j =>
      simp only [segments, List.map_cons, List.flatten_cons, List.append_assoc]
      rw [ih]
      simp

theorem documentOrder_perm (marks : List (Circle × Option Nat)) :
    (documentOrder marks).Perm (marks.map Prod.fst) := by
  unfold documentOrder
  have h := segments_flatten marks []
  simp only [List.nil_append] at h
  rw [← h]
  exact List.Perm.append_right _
    (List.Perm.flatten (List.Perm.map _ (List.perm_insertionSort _ _)))

theorem colorScaleCategory_extends (dom : OrdinalDomain) (d : Option String) :
    dom <+: (colorScaleCategory dom d).2 := by
  unfold colorScaleCategory
  split
  · exact List.prefix_refl _
  · exact List.prefix_append _ _

theorem indexIn_append_of_mem {d : Option String} {dom : OrdinalDomain} (t : OrdinalDomain)
    (h : d ∈ dom) : indexIn d (dom ++ t) = indexIn d dom := by
  induction dom with
  | nil => cases h
  | cons a dom ih =>
    by_cases ha : a = d
    · simp [indexIn, ha]
    · have hm : d ∈ dom := by
        rcases List.mem_cons.mp h with h1 | h1
        · exact absurd h1.symm ha
        · exact h1
      simp [indexIn, ha, ih hm]

theorem indexIn_append_of_not_mem {d : Option String} {dom : OrdinalDomain}
    (h : d ∉ dom) : indexIn d (dom ++ [d]) = dom.length := by
  induction dom with
  | nil => simp [indexIn]
  | cons a dom ih =>
    have ha : a ≠ d := fun e => h (e ▸ List.mem_cons_self _ _)
    have hm : d ∉ dom := fun e => h (List.mem_cons_of_mem _ e)
    simp [indexIn, ha, ih hm]

theorem colorScaleCategory_stable (dom dom1 : OrdinalDomain) (d : Option String)
    (h : (colorScaleCategory dom d).2 <+: dom1) :
    colorScaleCategory dom1 d = ((colorScaleCategory dom d).1, dom1) := by
  obtain ⟨t, rfl⟩ := h
  unfold colorScaleCategory
  by_cases hd : d ∈ dom
  · simp only [hd, if_true]
    rw [if_pos (List.mem_append_left _ hd), indexIn_append_of_mem t hd]
  · simp only [hd, if_false]
    have hm : d ∈ dom ++ [d] := List.mem_append_right _ (List.mem_singleton_self d)
    rw [if_pos (List.mem_append_left _ hm), indexIn_append_of_mem t hm,
      indexIn_append_of_not_mem hd]

theorem fillColor_extends (env : Env) (colorBy : String) (dom : OrdinalDomain) (d : Record) :
    dom <+: (fillColor env colorBy dom d).2 := by
  unfold fillColor
  split
  · exact colorScaleCategory_extends _ _
  · split
    · exact List.prefix_refl _
    · split <;> exact List.prefix_refl _

theorem fillColor_stable (env : Env) (colorBy : String) (dom dom1 : OrdinalDomain) (d : Record)
    (h : (fillColor env colorBy dom d).2 <+: dom1) :
    fillColor env colorBy dom1 d = ((fillColor env colorBy dom d).1, dom1) := by
  unfold fillColor at h ⊢
  split
  · next hc => rw [if_pos hc] at h; exact colorScaleCategory_stable _ _ _ h
  · split
    · rfl
    · split <;> rfl

theorem settledMarks_extends (env : Env) (colorBy : String) (data : List Record)
    (l : List Record) (dom : OrdinalDomain) :
    dom <+: (settledMarks env colorBy data l dom).2 := by
  induction l generalizing dom with
  | nil => exact List.prefix_refl _
  | cons d ds ih =>
    simp only [settledMarks]
    exact (fillColor_extends env colorBy dom d).trans (ih _)

theorem settledMarks_stable (env : Env) (colorBy : String) (data : List Record)
    (l : List Record) (dom dom1 : OrdinalDomain)
    (h : (settledMarks env colorBy data l dom).2 <+: dom1) :
    settledMarks env colorBy data l dom1 = ((settledMarks env colorBy data l dom).1, dom1) := by
  induction l generalizing dom with
  | nil => rfl
  | cons d ds ih =>
    simp only [settledMarks] at h ⊢
    have hf : (fillColor env colorBy dom d).2 <+: dom1 :=
      (settledMarks_extends env colorBy data ds _).trans h
    rw [fillColor_stable env colorBy dom dom1 d hf]
    simp only
    rw [ih _ h]

theorem settledMarks_fst (env : Env) (colorBy : String) (data : List Record)
    (l : List Record) (dom : OrdinalDomain) :
    (settledMarks env colorBy data l dom).1.map Prod.fst = l := by
  induction l generalizing dom with
  | nil => rfl
  | cons d ds ih => simp [settledMarks, ih]

theorem updateChart_marks (env : Env) (ctl : Controls) (data : List Record) (s : State) :
    ((updateChart env ctl data s).circles.map Circle.mark).Perm
        (settledMarks env ctl.colorBy data
          (filterRecords data (stringToNumber ctl.calorieSlider) ctl.categorySelect)
          s.categoryDomain).1 ∧
      (updateChart env ctl data s).categoryDomain =
        (settledMarks env ctl.colorBy data
          (filterRecords data (stringToNumber ctl.calorieSlider) ctl.categorySelect)
          s.categoryDomain).2 := by
  have hs := settle_marks env ctl.colorBy data
    (bindKey s.circles
      (filterRecords data (stringToNumber ctl.calorieSlider) ctl.categorySelect))
    (drawLegend env ctl.colorBy s).categoryDomain
  rw [drawLegend_categoryDomain] at hs
  unfold bindKey at hs
  rw [bindData_fst] at hs
  constructor
  · rw [← hs.1]
    simp only [updateChart, drawLegend_categoryDomain, bindKey]
    have hp := documentOrder_perm (settle env ctl.colorBy data
      (bindData (filterRecords data (stringToNumber ctl.calorieSlider) ctl.categorySelect)
        (nodeByKeyValue s.circles 0 [])) s.categoryDomain).1
    have hm := hp.map Circle.mark
    rwa [List.map_map] at hm
  · rw [← hs.2]
    simp only [updateChart, drawLegend_categoryDomain, bindKey]

theorem updateChart_data (env : Env) (ctl : Controls) (data : List Record) (s : State) :
    ((updateChart env ctl data s).circles.map (fun c => c.datum)).Perm
      (filterRecords data (stringToNumber ctl.calorieSlider) ctl.categorySelect) := by
  have h := ((updateChart_marks env ctl data s).1).map Prod.fst
  rw [settledMarks_fst, List.map_map] at h
  exact h

/-- C10. Calling `updateChart` a second time with the same dataset, controls and surroundings
leaves, once the transitions are over, the same marks as the first call: the same records at
the same positions, with the same radius and fill, also when records share a key. -/
theorem updateChart_idempotent (env : Env) (ctl : Controls) (data : List Record) (s : State) :
    ((updateChart env ctl data (updateChart env ctl data s)).circles.map Circle.mark).Perm
      ((updateChart env ctl data s).circles.map Circle.mark) := by
  obtain ⟨h1, hd1⟩ := updateChart_marks env ctl data s
  obtain ⟨h2, -⟩ := updateChart_marks env ctl data (updateChart env ctl data s)
  rw [hd1, settledMarks_stable env ctl.colorBy data _ s.categoryDomain _ (List.prefix_refl _)]
    at h2
  exact h2.trans h1.symm

/-! ## The threshold 0 -/

theorem stringToNumber_0 : stringToNumber "0" = JSNum.fin 0 := by
  simp [stringToNumber,
    show stringNumericLiteral "0" = some (.decimal false 0 0) by decide,
    StrNumericLiteral.value]

theorem mem_filterRecords {data : List Record} {m : JSNum} {sel : String} {r : Record}
    (h : r ∈ filterRecords data m sel) : r ∈ data ∧ JSNum.le r.calories m = true := by
  rw [filterRecords_eq, List.mem_filter, Bool.and_eq_true] at h
  exact ⟨h.1, h.2.1⟩

theorem updateChart_data_of (env : Env) (slider selected colorBy : String)
    (data : List Record) (s : State) :
    ((updateChart env
        { calorieSlider := slider, categorySelect := selected, colorBy := colorBy }
        data s).circles.map (fun c => c.datum)).Perm
      (filterRecords data (stringToNumber slider) selected) :=
  updateChart_data env _ data s

theorem updateChart_datum_mem (env : Env) (slider selected colorBy : String)
    (data : List Record) (s : State) (c : Circle)
    (hc : c ∈ (updateChart env
        { calorieSlider := slider, categorySelect := selected, colorBy := colorBy }
        data s).circles) :
    c.datum ∈ filterRecords data (stringToNumber slider) selected := by
  have hp := updateChart_data_of env slider selected colorBy data s
  have h1 : c.datum ∈ (updateChart env
      { calorieSlider := slider, categorySelect := selected, colorBy := colorBy }
      data s).circles.map (fun c => c.datum) :=
    List.mem_map.mpr ⟨c, hc, rfl⟩
  exact hp.mem_iff.mp h1

/-- C5 (as amended). With the threshold 0 and the selection `all`, every record of the filtered
list, and so the datum of every circle left by `updateChart`, is a record of the working
dataset whose calories are `<= 0`; the filtered list is empty exactly when the dataset has no
such record. -/
theorem zeroThreshold_marks (env : Env) (colorBy : String) (raw : List Row) (s : State) :
    (∀ r ∈ filterRecords (loadData raw) (JSNum.fin 0) "all",
        r ∈ loadData raw ∧ JSNum.le r.calories (JSNum.fin 0) = true) ∧
      (filterRecords (loadData raw) (JSNum.fin 0) "all" = [] ↔
        ∀ r ∈ loadData raw, JSNum.le r.calories (JSNum.fin 0) = false) ∧
      ∀ c ∈ (updateChart env
          { calorieSlider := "0", categorySelect := "all", colorBy := colorBy }
          (loadData raw) s).circles,
        c.datum ∈ loadData raw ∧ JSNum.le c.datum.calories (JSNum.fin 0) = true := by
  refine ⟨fun r hr => mem_filterRecords hr, ?_, fun c hc => ?_⟩
  · rw [filterRecords_eq, List.filter_eq_nil_iff]
    simp
  · have hm := updateChart_datum_mem env "0" "all" colorBy (loadData raw) s c hc
    rw [stringToNumber_0] at hm
    exact mem_filterRecords hm

/-- C5 (counterexample). The dataset of the row with calories `-5` has no record with
calories 0, yet its record passes the threshold 0 and `updateChart` leaves a circle. -/
theorem negativeCaloriesRow_visible :
    filterRecords (loadData [negativeCaloriesRow]) (JSNum.fin 0) "all" =
        [recordOf negativeCaloriesRow] ∧
      (recordOf negativeCaloriesRow).calories = JSNum.fin (-5) ∧
      (∀ r ∈ loadData [negativeCaloriesRow], r.calories ≠ JSNum.fin 0) ∧
      ((updateChart sampleEnv
          { calorieSlider := "0", categorySelect := "all", colorBy := "Beverage_category" }
          (loadData [negativeCaloriesRow]) initialState).circles.map (fun c => c.datum)).Perm
        [recordOf negativeCaloriesRow] := by
  have hc : negativeCaloriesRow.get "Calories" = some "-5" := by decide
  have hs : negativeCaloriesRow.get " Sugars (g)" = some "1" := by decide
  have hcal : (recordOf negativeCaloriesRow).calories = JSNum.fin (-5) := by
    simp [recordOf, hc, toNumber_neg5]
  have hl : loadData [negativeCaloriesRow] = [recordOf negativeCaloriesRow] := by
    rw [loadData_singleton, hc, hs, toNumber_neg5, toNumber_1]
    norm_num [JSNum.isNaN, JSNum.le]
  have hf : filterRecords (loadData [negativeCaloriesRow]) (JSNum.fin 0) "all" =
      [recordOf negativeCaloriesRow] := by
    rw [hl, filterRecords_eq]
    simp [List.filter_cons, hcal, JSNum.le]
  refine ⟨hf, hcal, ?_, ?_⟩
  · intro r hr
    rw [hl, List.mem_singleton] at hr
    rw [hr, hcal]
    intro h
    injection h with h
    norm_num at h
  · have hp := updateChart_data_of sampleEnv "0" "all" "Beverage_category"
      (loadData [negativeCaloriesRow]) initialState
    rw [stringToNumber_0, hf] at hp
    exact hp

end Starbucks
